import Mathlib

/-!
Verification of the pulsar message-passing core (`pulsar/async/mailbox.py`
and `pulsar/async/stream.py`) against its natural-language specification.

The Python source is shallowly embedded: each method becomes a pure Lean
function over an explicit state record.  Effects that the source performs
against external collaborators (the socket, the event loop, the pickle
codec) are modelled by oracles passed as arguments, and the value the
function returns records the externally visible events (bytes written,
chunks delivered, error raised).  Python exceptions become an explicit
error type; a raised exception in the middle of a method leaves the
mutations already performed in place, exactly as in Python, so those
functions return the post-mutation state together with the error.
-/

namespace Pulsar

/-- Python exception values, as far as the mailbox and stream code
distinguishes them (the textual message is carried verbatim). -/
inductive PyError where
  | protocolError (msg : String)
  | keyError (msg : String)
  | commandError (msg : String)
  | attributeError (msg : String)
  | nameError (nm : String)
  | ioError (msg : String)
  | notImplementedError
  deriving Repr, DecidableEq

/-- A Python runtime value, as carried in message arguments and results. -/
inductive Value where
  | none
  | str (s : String)
  | nat (n : Nat)
  | failure (e : PyError)
  deriving Repr, DecidableEq

/-- Modelled from the spec: a command registry entry — `lookup(name) ->
handler | none`, where the handler declares whether it requires
acknowledgment (`command.ack` in `mailbox.py`).  The registry itself lives
outside `src/` (`pulsar.async.proxy.get_command`). -/
structure Command where
  name : String
  ack : Bool
  deriving Repr, DecidableEq

/-- Modelled from the spec: the command registry is a finite map from
command name to handler; `get_command` is its lookup. -/
abbrev Registry := List Command

def get_command (reg : Registry) (nm : String) : Option Command :=
  reg.find? (fun c => c.name = nm)

/-- The wire-level envelope dictionary built by `Message.command`
(`mailbox.py` lines 121-125): keys `command`, `sender`, `target`, `args`,
`kwargs` and, for acked commands only, `ack`. -/
structure MessageData where
  command : String
  sender : String
  target : String
  args : List Value
  kwargs : List (String × Value)
  ack : Option String
  deriving Repr, DecidableEq

/-- A `Message` (`mailbox.py` lines 107-136).  The `future` attribute is a
`Deferred` placeholder object; here we only record whether the message
carries one (`hasFuture`), since its resolution state is tracked in the
correlation table of the protocol that stores it. -/
structure Message where
  data : MessageData
  hasFuture : Bool
  deriving Repr, DecidableEq

/-- `Message.command` (`mailbox.py` lines 118-131).  `get_command` is looked
up first; the source performs no `None` check, so a missing command makes
`command.__name__` raise `AttributeError` before any envelope dictionary is
built.  The correlation token (`gen_unique_id()[:8]`) is supplied by the
caller as `tok`, since id generation lives outside `src/`.  `args`/`kwargs`
default to `()` / `{}` when passed as `None`. -/
def Message.command (reg : Registry) (tok : String) (nm sender target : String)
    (args : Option (List Value)) (kwargs : Option (List (String × Value))) :
    Except PyError Message :=
  match get_command reg nm with
  | Option.none =>
      Except.error (PyError.attributeError
        "NoneType object has no attribute __name__")
  | Option.some cmd =>
      let d : MessageData :=
        { command := cmd.name
          sender := sender
          target := target
          args := args.getD []
          kwargs := kwargs.getD []
          ack := if cmd.ack then Option.some tok else Option.none }
      Except.ok { data := d, hasFuture := cmd.ack }

/-- `Message.callback` (`mailbox.py` lines 133-136): the response envelope
`{'command': 'callback', 'result': result, 'ack': ack}`. -/
structure CallbackData where
  result : Value
  ack : String
  deriving Repr, DecidableEq

def Message.callback (result : Value) (ack : String) : CallbackData :=
  { result := result, ack := ack }

/-- The resolution state of a pending-result placeholder (a `Deferred`)
held in the correlation table. -/
inductive FutureState where
  | pending
  | resolvedOk (v : Value)
  | resolvedErr (e : PyError)
  deriving Repr, DecidableEq

/-- `MailboxProtocol` per-connection state: the correlation table
`self._pending_responses`, a mapping from ack token to the pending
placeholder. -/
structure ProtocolState where
  pending : List (String × FutureState)
  deriving Repr, DecidableEq

/-- Python `dict.pop(k)`: the stored value and the table without the first
binding of `k`, or `none` (→ `KeyError`) when `k` is absent. -/
def popPending (tbl : List (String × FutureState)) (tok : String) :
    Option (FutureState × List (String × FutureState)) :=
  match tbl with
  | [] => Option.none
  | p :: rest =>
      if p.1 = tok then Option.some (p.2, rest)
      else
        match popPending rest tok with
        | Option.none => Option.none
        | Option.some (v, rest') => Option.some (v, p :: rest')

/-- Resolving the placeholder stored under `tok` with a failure
(`req.future.callback(sys.exc_info())`): the table entry aliases the
`Deferred` object, so the stored state changes in place. -/
def resolveWithFailure (tbl : List (String × FutureState)) (tok : String)
    (e : PyError) : List (String × FutureState) :=
  tbl.map (fun p => if p.1 = tok then (p.1, FutureState.resolvedErr e) else p)

def isIOError : PyError → Bool
  | PyError.ioError _ => true
  | _ => false

/-- `MailboxProtocol._write` (`mailbox.py` lines 235-243), reduced to its
error behaviour: pickling and frame-encoding are deterministic, and the
outcome of `self.transport.write(data)` is the oracle `writeResult`
(`none` = the write returned, `some e` = it raised `e`).  The source
catches `IOError` and re-raises it only while the actor is running; any
other exception propagates unconditionally.  The returned value is the
exception escaping `_write`, if any. -/
def MailboxProtocol.writeEnvelope (running : Bool)
    (writeResult : Option PyError) : Option PyError :=
  match writeResult with
  | Option.none => Option.none
  | Option.some e =>
      if isIOError e && !running then Option.none else Option.some e

/-- The externally observable steps of `MailboxProtocol._start`, in
execution order. -/
inductive StartEvent where
  | storePending (tok : String)
  | writeAttempt
  | resolveFailure (tok : String) (e : PyError)
  deriving Repr, DecidableEq

/-- `MailboxProtocol._start` (`mailbox.py` lines 171-179).  For a request
carrying a future and an `ack` key, the placeholder is stored in the
correlation table first, then `_write` is attempted, and an exception
escaping `_write` is caught and used to resolve the stored placeholder.
Otherwise `_write` alone runs, and an exception it raises escapes `_start`
(the third component). -/
def MailboxProtocol.start (st : ProtocolState) (req : Message)
    (running : Bool) (writeResult : Option PyError) :
    ProtocolState × List StartEvent × Option PyError :=
  if req.hasFuture && req.data.ack.isSome then
    let tok := req.data.ack.getD ""
    let st1 : ProtocolState :=
      { pending := st.pending ++ [(tok, FutureState.pending)] }
    match MailboxProtocol.writeEnvelope running writeResult with
    | Option.none =>
        (st1, [StartEvent.storePending tok, StartEvent.writeAttempt],
         Option.none)
    | Option.some e =>
        ({ pending := resolveWithFailure st1.pending tok e },
         [StartEvent.storePending tok, StartEvent.writeAttempt,
          StartEvent.resolveFailure tok e],
         Option.none)
  else
    (st, [StartEvent.writeAttempt],
     MailboxProtocol.writeEnvelope running writeResult)

/-- Python truthiness of the `ack` field: `None` and the empty string are
falsy (`if not ack` at `mailbox.py` line 195). -/
def ackTruthy : Option String → Bool
  | Option.none => false
  | Option.some s => !(s = "")

/-- The callback branch of `MailboxProtocol._on_message` (`mailbox.py`
lines 192-201): a falsy `ack` raises `ProtocolError('A callback without
id')`; otherwise `self._pending_responses.pop(ack)` is attempted and a miss
raises a plain `KeyError('Callback %s not in pending callbacks')`; a hit
removes the entry and resolves it with the carried result.  On success the
new table and the (token, resolved future) pair are returned. -/
def MailboxProtocol.onCallbackMessage (st : ProtocolState)
    (ack : Option String) (result : Value) :
    Except PyError (ProtocolState × String × FutureState) :=
  if ackTruthy ack then
    let tok := ack.getD ""
    match popPending st.pending tok with
    | Option.none =>
        Except.error (PyError.keyError
          ("Callback " ++ tok ++ " not in pending callbacks"))
    | Option.some (_, rest) =>
        Except.ok ({ pending := rest }, tok, FutureState.resolvedOk result)
  else
    Except.error (PyError.protocolError "A callback without id")

/-- The router address held by a `MailboxClient`: a `(host, port)` tuple or
any other (non-tuple) address value. -/
inductive Address where
  | tcp (host : String) (port : Nat)
  | other
  deriving Repr, DecidableEq

/-- `MailboxClient` state (`mailbox.py` lines 249-253): the router address
and the lazily-established connection (`self._connection`), whose protocol
state is its correlation table. -/
structure MailboxClientState where
  address : Address
  connection : Option ProtocolState
  deriving Repr, DecidableEq

/-- `MailboxClient.request` (`mailbox.py` lines 263-277).  When
`self._connection is None` and the address is a tuple, the source executes
`yield loop.create_connection(MailboxProtocol, host, port)` (line 269); the
name `loop` is bound nowhere — not a local, not a module global (the
instance attribute is `self._loop`) — so Python raises
`NameError: name 'loop' is not defined` before any connection is made.  A
non-tuple address raises `NotImplementedError`.  With a connection already
remembered, a `Message` is built (token `tok` supplied by the caller, as in
`Message.command`) and handed to the connection's `_start`; the caller then
suspends on `req.future`.  Returned: the client state after the call and
the exception escaping it, if any. -/
def MailboxClient.request (reg : Registry) (tok : String)
    (st : MailboxClientState) (command sender target : String)
    (args : Option (List Value)) (kwargs : Option (List (String × Value)))
    (running : Bool) (writeResult : Option PyError) :
    MailboxClientState × Option PyError :=
  match st.connection with
  | Option.none =>
      match st.address with
      | Address.tcp _ _ => (st, Option.some (PyError.nameError "loop"))
      | Address.other => (st, Option.some PyError.notImplementedError)
  | Option.some conn =>
      match Message.command reg tok command sender target args kwargs with
      | Except.error e => (st, Option.some e)
      | Except.ok req =>
          let r := MailboxProtocol.start conn req running writeResult
          ({ st with connection := Option.some r.1 }, r.2.2)

/-!  ## The stream transport (`pulsar/async/stream.py`)  -/

/-- A byte. -/
abbrev Byte := Nat

/-- One chunk of bytes, as handed to `write` or received from the socket. -/
abbrev Chunk := List Byte

/-- `SocketStreamTransport` state: the two pause flags (`stream.py` lines
37-38), the paused-reading buffer `self._read_buffer`, the outbound queue
`self._write_buffer` (a deque of byte chunks, created by the base class),
whether the socket's file descriptor is currently registered for
writability with the event loop, and the closed/closing flags checked by
`write` (`_check_closed`, `self._closing` — base class, modelled from the
spec: writing to a closed transport raises). -/
structure TransportState where
  paused_reading : Bool := false
  paused_writing : Bool := false
  read_buffer : List Chunk := []
  write_buffer : List Chunk := []
  writer_registered : Bool := false
  closed : Bool := false
  closing : Bool := false
  shutdown_scheduled : Bool := false
  deriving Repr, DecidableEq

/-- The splitting loop of `write` (`stream.py` lines 84-85):
`for i in range(0, len(data), max): append(data[i:i+max])`.  Structured on
a fuel of `data.length`, which suffices whenever `0 < max`. -/
def splitChunksGo (max : Nat) : Nat → Chunk → List Chunk
  | 0, _ => []
  | fuel + 1, d =>
      if d = [] then []
      else d.take max :: splitChunksGo max fuel (d.drop max)

def splitChunks (max : Nat) (data : Chunk) : List Chunk :=
  splitChunksGo max data.length data

/-- The pieces `write` appends to the queue for one `data` argument
(`stream.py` lines 83-87): split only when `len(data)` exceeds the
configured maximum single-chunk size. -/
def writePieces (max : Nat) (data : Chunk) : List Chunk :=
  if max < data.length then splitChunks max data else [data]

/-- The send loop of `_ready_write` (`stream.py` lines 110-126).  The
oracle lists, per successive `self.sock.send(buffer[0])` call, how many
bytes the socket accepts (capped at the chunk's length); `0` stands for
both `sent == 0` and an `EWOULDBLOCK` socket error, which break the loop.
`merge_prefix(buffer, sent); buffer.popleft()` — `merge_prefix` lives
outside `src/`, modelled from the spec: the sent prefix is trimmed from the
head chunk and the remaining bytes stay at the queue head — drops exactly
the sent bytes.  Socket errors other than would-block abort the connection
(lines 125-128) and are not exercised here.  Returns the remaining queue
and the bytes that reached the socket, in order. -/
def drainLoop : List Chunk → List Nat → List Chunk × List Byte
  | buf, [] => (buf, [])
  | [], _ :: _ => ([], [])
  | c :: rest, n :: ns =>
      let sent := min n c.length
      if sent = 0 then (c :: rest, [])
      else if sent = c.length then
        let r := drainLoop rest ns
        (r.1, c ++ r.2)
      else
        let r := drainLoop (c.drop sent :: rest) ns
        (r.1, c.take sent ++ r.2)

/-- `SocketStreamTransport._ready_write` (`stream.py` lines 101-134): a
no-op returning 0 bytes while writing is paused; otherwise the send loop
runs, and once the queue is drained the writability interest is removed
(and, when closing, the shutdown is scheduled). -/
def SocketStreamTransport.readyWrite (st : TransportState)
    (oracle : List Nat) : TransportState × List Byte :=
  if st.paused_writing then (st, [])
  else
    let r := drainLoop st.write_buffer oracle
    let st1 := { st with write_buffer := r.1 }
    if r.1 = [] then
      let st2 := { st1 with writer_registered := false }
      (if st2.closing then { st2 with shutdown_scheduled := true } else st2,
       r.2)
    else (st1, r.2)

/-- `SocketStreamTransport.write` (`stream.py` lines 75-94).  Empty `data`
returns at once — before `_check_closed` — touching nothing.  Otherwise a
closed transport raises; `writing` (base-class property, modelled from the
spec: true iff the write queue holds data) is captured before the append;
the data is appended as `writePieces`; and only when nothing was in flight
and writing is not paused does `_ready_write` run immediately, after which
a still-nonempty queue registers the writability interest (a drained one
with `_closing` set schedules the shutdown).  Returned: the new state, the
bytes sent to the socket, and the exception raised, if any.
The step of `write` that follows its direct `_ready_write` call
(`stream.py` lines 91-94) is factored out as `writeAfterReady`: when the
queue is still non-empty (`writing`), register the writability interest;
otherwise, when closing, schedule the shutdown. -/
def writeAfterReady :
    TransportState × List Byte → TransportState × List Byte × Option PyError
  | (s, out) =>
      if s.write_buffer = [] then
        (if s.closing then { s with shutdown_scheduled := true } else s,
         out, Option.none)
      else ({ s with writer_registered := true }, out, Option.none)

def SocketStreamTransport.write (max : Nat) (st : TransportState)
    (data : Chunk) (oracle : List Nat) :
    TransportState × List Byte × Option PyError :=
  if data = [] then (st, [], Option.none)
  else if st.closed then
    (st, [], Option.some (PyError.ioError "transport closed"))
  else if st.write_buffer = [] ∧ st.paused_writing = false then
    writeAfterReady
      (SocketStreamTransport.readyWrite
        { st with write_buffer := st.write_buffer ++ writePieces max data }
        oracle)
  else
    ({ st with write_buffer := st.write_buffer ++ writePieces max data },
     [], Option.none)

/-- `SocketStreamTransport.pause_writing` (`stream.py` lines 59-66): set
the flag and deregister the writability interest. -/
def SocketStreamTransport.pause_writing (st : TransportState) :
    TransportState :=
  if st.paused_writing then st
  else { st with paused_writing := true, writer_registered := false }

/-- `SocketStreamTransport.resume_writing` (`stream.py` lines 68-73):
re-register the writability interest when the queue holds data, then clear
the flag.  The callback registered at line 72 is the transport's
write-readiness handler; the event loop invoking it is modelled as a later
`readyWrite` call. -/
def SocketStreamTransport.resume_writing (st : TransportState) :
    TransportState :=
  if st.paused_writing then
    let st1 :=
      if !(st.write_buffer = []) then { st with writer_registered := true }
      else st
    { st1 with paused_writing := false }
  else st

/-- `SocketStreamTransport.pause` (`stream.py` lines 40-47). -/
def SocketStreamTransport.pause (st : TransportState) : TransportState :=
  if st.paused_reading then st else { st with paused_reading := true }

/-- `SocketStreamTransport.resume` (`stream.py` lines 49-57).  The flag is
cleared and `self._read_buffer` replaced by `[]` first; then
`for data in buffer: self._data_received(chunk)` runs — the name `chunk` is
bound nowhere in `resume` (the loop variable is `data`), so with a
non-empty buffer the first iteration raises
`NameError: name 'chunk' is not defined`, after the buffered chunks were
already discarded from the state.  No chunk is ever delivered to the
protocol.  Returned: the state after the call, the chunks delivered to the
protocol, and the exception raised, if any. -/
def SocketStreamTransport.resume (st : TransportState) :
    TransportState × List Chunk × Option PyError :=
  if st.paused_reading then
    let buffer := st.read_buffer
    let st1 := { st with paused_reading := false, read_buffer := [] }
    match buffer with
    | [] => (st1, [], Option.none)
    | _ :: _ => (st1, [], Option.some (PyError.nameError "chunk"))
  else (st, [], Option.none)

/-- The receive loop of `SocketStreamTransport._read_ready` (`stream.py`
lines 136-163).  `recvs` lists the successive results of
`self._sock.recv(...)`; the end of the list stands for `EWOULDBLOCK`
(return).  A non-empty chunk is buffered when reading is paused and
delivered to the protocol otherwise; an empty chunk ends the loop and, on
the very first receive of the event, signals end-of-stream and closes the
transport.  Returned: the state and the chunks delivered to the protocol,
in order. -/
def readReadyGo (st : TransportState) :
    List Chunk → Nat → TransportState × List Chunk
  | [], _ => (st, [])
  | c :: rest, passes =>
      if c = [] then
        (if passes = 0 then { st with closed := true } else st, [])
      else
        if st.paused_reading then
          readReadyGo { st with read_buffer := st.read_buffer ++ [c] }
            rest (passes + 1)
        else
          let r := readReadyGo st rest (passes + 1)
          (r.1, c :: r.2)

def SocketStreamTransport.readReady (st : TransportState)
    (recvs : List Chunk) : TransportState × List Chunk :=
  readReadyGo st recvs 0

/-- The failure-aggregation step of `create_connection` (`stream.py` lines
236-247), over the textual descriptions (`str(exc)`) of the collected
per-candidate failures: a single failure is re-raised as is; several with
identical text re-raise the first; otherwise a combined
`'Multiple exceptions: '` error joins all the texts with `', '`.  An empty
list (no candidate produced a failure) would index out of bounds at
`exceptions[0]`; the aggregation step is only reached when every candidate
failed, so it yields `none` here. -/
abbrev ErrText := List Char

def combineExceptions (excs : List ErrText) : Option ErrText :=
  match excs with
  | [] => Option.none
  | e :: rest =>
      if rest = [] then Option.some e
      else if rest.all (fun x => x = e) then Option.some e
      else
        Option.some ("Multiple exceptions: ".toList ++
          List.intercalate ", ".toList (e :: rest))

/-- Lookup stage of `command_in_context` (`mailbox.py` lines 72-77): the
named command is looked up and a missing one raises
`CommandError('unknown %s' % command)`; a found one is returned, ready to
be invoked with a fresh `CommandRequest` (the handler itself is an
external collaborator). -/
def command_in_context_lookup (reg : Registry) (nm : String) :
    Except PyError Command :=
  match get_command reg nm with
  | Option.none => Except.error (PyError.commandError ("unknown " ++ nm))
  | Option.some c => Except.ok c

/-- A sequence of `write` calls submitted in one stretch (as by the
protocol layer between event-loop turns).  Each call's send oracle is
empty; while writing is paused this is irrelevant, since `write` never
reaches the send loop then.  Returns the final state and all bytes the
calls sent to the socket. -/
def writeSeq (max : Nat) :
    TransportState → List Chunk → TransportState × List Byte
  | st, [] => (st, [])
  | st, d :: ds =>
      let r := SocketStreamTransport.write max st d []
      let r2 := writeSeq max r.1 ds
      (r2.1, r.2.1 ++ r2.2)

/-!  ## Helper lemmas  -/

theorem splitChunksGo_flatten (max : Nat) (hmax : 0 < max) :
    ∀ (fuel : Nat) (d : Chunk), d.length ≤ fuel →
      (splitChunksGo max fuel d).flatten = d := by
  intro fuel
  induction fuel with
  | zero =>
      intro d hd
      have : d = [] := by
        cases d with
        | nil => rfl
        | cons a t => simp at hd
      simp [this, splitChunksGo]
  | succ n ih =>
      intro d hd
      by_cases he : d = []
      · simp [he, splitChunksGo]
      · have h1 : (d.drop max).length ≤ n := by
          have hdpos : 0 < d.length := List.length_pos.mpr he
          simp only [List.length_drop]
          omega
        simp [splitChunksGo, he, ih _ h1]

theorem splitChunksGo_mem (max : Nat) (hmax : 0 < max) :
    ∀ (fuel : Nat) (d : Chunk) (p : Chunk),
      p ∈ splitChunksGo max fuel d → p ≠ [] ∧ p.length ≤ max := by
  intro fuel
  induction fuel with
  | zero => intro d p hp; simp [splitChunksGo] at hp
  | succ n ih =>
      intro d p hp
      by_cases he : d = []
      · simp [splitChunksGo, he] at hp
      · simp only [splitChunksGo, he, if_false, List.mem_cons] at hp
        rcases hp with h | h
        · subst h
          constructor
          · have : (d.take max).length = min max d.length :=
              List.length_take ..
            have hdpos : 0 < d.length := List.length_pos.mpr he
            intro hnil
            rw [hnil] at this
            simp at this
            omega
          · have : (d.take max).length = min max d.length :=
              List.length_take ..
            omega
        · exact ih _ _ h

theorem writePieces_flatten (max : Nat) (hmax : 0 < max) (data : Chunk) :
    (writePieces max data).flatten = data := by
  unfold writePieces
  by_cases h : max < data.length
  · simp only [h, if_true]
    exact splitChunksGo_flatten max hmax data.length data le_rfl
  · simp [h]

theorem writePieces_mem (max : Nat) (hmax : 0 < max) (data : Chunk)
    (hd : data ≠ []) :
    ∀ p ∈ writePieces max data, p ≠ [] ∧ p.length ≤ max := by
  intro p hp
  unfold writePieces at hp
  by_cases h : max < data.length
  · simp only [h, if_true] at hp
    exact splitChunksGo_mem max hmax data.length data p hp
  · simp only [h, if_false, List.mem_singleton] at hp
    subst hp
    exact ⟨hd, by omega⟩

theorem flatMap_writePieces_flatten (max : Nat) (hmax : 0 < max) :
    ∀ datas : List Chunk,
      (datas.flatMap (writePieces max)).flatten = datas.flatten := by
  intro datas
  induction datas with
  | nil => rfl
  | cons d ds ih =>
      simp [List.flatMap_cons, List.flatten_append, ih,
        writePieces_flatten max hmax d]

theorem flatMap_writePieces_mem (max : Nat) (hmax : 0 < max)
    (datas : List Chunk) (hne : ∀ d ∈ datas, d ≠ []) :
    ∀ c ∈ datas.flatMap (writePieces max), c ≠ [] := by
  intro c hc
  rcases List.mem_flatMap.mp hc with ⟨d, hd, hcd⟩
  exact (writePieces_mem max hmax d (hne d hd) c hcd).1

theorem drainLoop_flatten :
    ∀ (oracle : List Nat) (buf : List Chunk),
      (drainLoop buf oracle).2 ++ (drainLoop buf oracle).1.flatten
        = buf.flatten := by
  intro oracle
  induction oracle with
  | nil => intro buf; simp [drainLoop]
  | cons n ns ih =>
      intro buf
      cases buf with
      | nil => simp [drainLoop]
      | cons c rest =>
          by_cases h0 : min n c.length = 0
          · simp [drainLoop, h0]
          · have hcne : c ≠ [] := fun hh => h0 (by simp [hh])
            by_cases hfull : min n c.length = c.length
            · have := ih rest
              simp only [drainLoop, h0, hfull, if_false, if_true]
              have hlen : ¬ List.length c = 0 := by
                simpa [List.length_eq_zero] using hcne
              rw [if_neg hlen]
              simp only [List.flatten_cons, List.append_assoc]
              rw [← this]
            · have := ih (c.drop (min n c.length) :: rest)
              simp only [drainLoop, h0, hfull, if_false]
              simp only [List.flatten_cons, List.append_assoc] at this ⊢
              rw [this, ← List.append_assoc, List.take_append_drop]

theorem drainLoop_full :
    ∀ (buf : List Chunk), (∀ c ∈ buf, c ≠ []) →
      drainLoop buf (buf.map List.length) = ([], buf.flatten) := by
  intro buf
  induction buf with
  | nil => intro h; rfl
  | cons c rest ih =>
      intro h
      have hc : c ≠ [] := h c (by simp)
      have h0 : ¬ (min c.length c.length = 0) := by
        simp only [Nat.min_self]
        simpa [List.length_eq_zero] using hc
      simp only [List.map_cons, drainLoop, Nat.min_self, h0, if_false,
        if_true, List.flatten_cons]
      rw [ih (fun x hx => h x (by simp [hx]))]
      simp [List.length_eq_zero, hc]

theorem readyWrite_flatten (st : TransportState) (oracle : List Nat) :
    (SocketStreamTransport.readyWrite st oracle).2 ++
      (SocketStreamTransport.readyWrite st oracle).1.write_buffer.flatten
      = st.write_buffer.flatten := by
  unfold SocketStreamTransport.readyWrite
  by_cases hp : st.paused_writing
  · simp [hp]
  · have hd := drainLoop_flatten oracle st.write_buffer
    by_cases hb : (drainLoop st.write_buffer oracle).1 = []
    · by_cases hc : st.closing <;>
        · simp only [hp, if_false, hb, if_true, hc]
          simp only [hb, List.flatten_nil, List.append_nil] at hd
          simpa using hd
    · simp only [hp, if_false, hb]
      simpa using hd

theorem mem_isInfix_intercalate (sep : List Char) :
    ∀ (l : List (List Char)) (x : List Char), x ∈ l →
      x <:+: List.intercalate sep l := by
  intro l
  induction l with
  | nil => intro x hx; simp at hx
  | cons a t ih =>
      intro x hx
      cases t with
      | nil =>
          simp only [List.mem_singleton] at hx
          subst hx
          simp [List.intercalate, List.intersperse]
      | cons b t' =>
          rw [show List.intercalate sep (a :: b :: t')
              = a ++ sep ++ List.intercalate sep (b :: t') from by
            simp [List.intercalate, List.intersperse]]
          rcases List.mem_cons.mp hx with h | h
          · subst h
            exact ((List.prefix_append x sep).isInfix).trans
              (List.prefix_append (x ++ sep) _).isInfix
          · exact (ih x h).trans
              (List.suffix_append (a ++ sep) _).isInfix

theorem writeAfterReady_proj (p : TransportState × List Byte) :
    (writeAfterReady p).1.write_buffer = p.1.write_buffer ∧
    (writeAfterReady p).2.1 = p.2 ∧
    (writeAfterReady p).2.2 = Option.none := by
  obtain ⟨s, out⟩ := p
  unfold writeAfterReady
  by_cases hb : s.write_buffer = [] <;> by_cases hc : s.closing = true <;>
    simp [hb, hc]

theorem write_conservation (max : Nat) (st : TransportState) (data : Chunk)
    (oracle : List Nat) (hd : data ≠ []) (hcl : st.closed = false) :
    (SocketStreamTransport.write max st data oracle).2.1 ++
      (SocketStreamTransport.write max st data
        oracle).1.write_buffer.flatten
      = st.write_buffer.flatten ++ (writePieces max data).flatten ∧
    (SocketStreamTransport.write max st data oracle).2.2
      = Option.none := by
  unfold SocketStreamTransport.write
  rw [if_neg hd, if_neg (by simp [hcl])]
  by_cases hc3 : st.write_buffer = [] ∧ st.paused_writing = false
  · rw [if_pos hc3]
    have hproj := writeAfterReady_proj (SocketStreamTransport.readyWrite
      { st with write_buffer := st.write_buffer ++ writePieces max data }
      oracle)
    have hrw := readyWrite_flatten
      { st with write_buffer := st.write_buffer ++ writePieces max data }
      oracle
    refine ⟨?_, hproj.2.2⟩
    rw [hproj.1, hproj.2.1]
    simpa [List.flatten_append] using hrw
  · rw [if_neg hc3]
    exact ⟨by simp [List.flatten_append], rfl⟩

theorem resume_then_full_drain (st : TransportState)
    (hp : st.paused_writing = true)
    (hne : ∀ c ∈ st.write_buffer, c ≠ []) :
    (SocketStreamTransport.readyWrite
        (SocketStreamTransport.resume_writing st)
        (st.write_buffer.map List.length)).2
      = st.write_buffer.flatten ∧
    (SocketStreamTransport.readyWrite
        (SocketStreamTransport.resume_writing st)
        (st.write_buffer.map List.length)).1.write_buffer
      = [] := by
  have hfull := drainLoop_full st.write_buffer hne
  unfold SocketStreamTransport.resume_writing SocketStreamTransport.readyWrite
  by_cases hbe : st.write_buffer = [] <;>
    by_cases hclo : st.closing = true <;>
      simp [hp, hbe, hclo, hfull, drainLoop]

theorem write_paused (max : Nat) (st : TransportState) (data : Chunk)
    (oracle : List Nat) (hp : st.paused_writing = true)
    (hd : data ≠ []) (hcl : st.closed = false) :
    SocketStreamTransport.write max st data oracle =
      ({ st with write_buffer := st.write_buffer ++ writePieces max data },
       [], Option.none) := by
  unfold SocketStreamTransport.write
  rw [if_neg hd, if_neg (by simp [hcl]),
    if_neg (fun hh => by simp [hp] at hh)]

theorem writeSeq_paused (max : Nat) :
    ∀ (datas : List Chunk) (st : TransportState),
      st.paused_writing = true → st.closed = false →
      (∀ d ∈ datas, d ≠ []) →
      writeSeq max st datas =
        ({ st with write_buffer :=
            st.write_buffer ++ datas.flatMap (writePieces max) }, []) := by
  intro datas
  induction datas with
  | nil => intro st hp hcl hne; simp [writeSeq]
  | cons d ds ih =>
      intro st hp hcl hne
      rw [writeSeq]
      rw [write_paused max st d [] hp (hne d (by simp)) hcl]
      rw [ih _ (by simp [hp]) (by simp [hcl])
        (fun x hx => hne x (by simp [hx]))]
      simp [List.flatMap_cons, List.append_assoc]

/-!  ## The claims  -/

/-- Claim C1 (status: code_bug).  The claim says a callback whose
correlation token has no matching entry in the correlation table is
treated uniformly with the missing-token case, as a logged protocol-level
error that cannot crash the dispatch loop.  The code's missing-token case
does raise `ProtocolError('A callback without id')` (third conjunct), but
an unknown token escapes `_on_message` as a raw `KeyError` lookup failure
(`mailbox.py` lines 197-200), a different error from the protocol-error
path (first and second conjuncts, evaluated at token `deadbeef` against an
empty correlation table). -/
theorem orphan_callback_raises_plain_keyerror :
    MailboxProtocol.onCallbackMessage { pending := [] }
        (Option.some "deadbeef") (Value.str "pong")
      = Except.error (PyError.keyError
          "Callback deadbeef not in pending callbacks") ∧
    (MailboxProtocol.onCallbackMessage { pending := [] }
        (Option.some "deadbeef") (Value.str "pong")
      ≠ Except.error (PyError.protocolError "A callback without id")) ∧
    MailboxProtocol.onCallbackMessage { pending := [] }
        Option.none (Value.str "pong")
      = Except.error (PyError.protocolError "A callback without id") := by
  have h1 : MailboxProtocol.onCallbackMessage { pending := [] }
      (Option.some "deadbeef") (Value.str "pong")
      = Except.error (PyError.keyError
          "Callback deadbeef not in pending callbacks") := rfl
  refine ⟨h1, ?_, rfl⟩
  rw [h1]
  simp

/-- Claim C3 (status: code_bug).  The claim says the first
`MailboxClient.request` with no connection establishes one to the router
address and remembers it.  At `mailbox.py` line 269 the source reads the
name `loop`, which is bound nowhere (the instance attribute is
`self._loop`), so the call raises `NameError: name 'loop' is not defined`
and no connection is ever established or remembered. -/
theorem client_request_without_connection_raises_nameerror :
    MailboxClient.request [{ name := "ping", ack := true }] "tok45678"
        { address := Address.tcp "127.0.0.1" 8060,
          connection := Option.none }
        "ping" "actorA" "arbiter" Option.none Option.none true Option.none
      = ({ address := Address.tcp "127.0.0.1" 8060,
           connection := Option.none },
         Option.some (PyError.nameError "loop")) := by
  decide

/-- Claim C4, counterexample.  The claim says `Message.command` fails with
a command-not-found error for a name absent from the registry.  Against an
empty registry, `Message.command` fails instead with the `AttributeError`
raised by `command.__name__` on the `None` lookup result (`mailbox.py`
line 121 performs no `None` check), which is not a `CommandError`. -/
theorem unknown_command_not_commanderror :
    Message.command [] "tok12345" "ping" "actorA" "actorB"
        Option.none Option.none
      = Except.error (PyError.attributeError
          "NoneType object has no attribute __name__") ∧
    (¬ ∃ s, Message.command [] "tok12345" "ping" "actorA" "actorB"
        Option.none Option.none
        = Except.error (PyError.commandError s)) := by
  refine ⟨rfl, ?_⟩
  rintro ⟨s, hs⟩
  simp [Message.command, get_command] at hs

/-- Claim C4, amended (status: corrected).  For every command name absent
from the registry, `Message.command` fails — with the attribute-lookup
error from accessing `__name__` on the missing handler, not with a
command-not-found error — and builds no envelope; the command-not-found
`CommandError('unknown %s')` for an absent name is raised by
`command_in_context`, not by `Message.command`. -/
theorem unknown_command_attributeerror_no_envelope
    (reg : Registry) (tok nm sender target : String)
    (args : Option (List Value)) (kwargs : Option (List (String × Value)))
    (h : get_command reg nm = Option.none) :
    Message.command reg tok nm sender target args kwargs
      = Except.error (PyError.attributeError
          "NoneType object has no attribute __name__") ∧
    command_in_context_lookup reg nm
      = Except.error (PyError.commandError ("unknown " ++ nm)) := by
  unfold Message.command command_in_context_lookup
  rw [h]
  exact ⟨rfl, rfl⟩

/-- Witness for the amended C4, at the empty registry and name
`notacmd`. -/
theorem unknown_command_attributeerror_witness :
    Message.command [] "tok00001" "notacmd" "actorA" "actorB"
        Option.none Option.none
      = Except.error (PyError.attributeError
          "NoneType object has no attribute __name__") ∧
    command_in_context_lookup [] "notacmd"
      = Except.error (PyError.commandError ("unknown " ++ "notacmd")) :=
  unknown_command_attributeerror_no_envelope [] "tok00001" "notacmd"
    "actorA" "actorB" Option.none Option.none rfl

/-- Claim C5 (status: confirmed).  For a command the registry declares as
not requiring acknowledgment, the built `Message` carries no correlation
token (`ack` absent from the envelope) and no pending-result placeholder
(`future is None`), and `_start` on such a message leaves the connection's
correlation table — and the rest of the protocol state — unchanged,
whatever the outcome of the write. -/
theorem unacked_request_no_token_no_table_entry
    (reg : Registry) (cmd : Command) (tok nm sender target : String)
    (args : Option (List Value)) (kwargs : Option (List (String × Value)))
    (st : ProtocolState) (running : Bool) (wr : Option PyError)
    (hc : get_command reg nm = Option.some cmd) (hack : cmd.ack = false) :
    Message.command reg tok nm sender target args kwargs
      = Except.ok { data := { command := cmd.name, sender := sender,
                              target := target, args := args.getD [],
                              kwargs := kwargs.getD [],
                              ack := Option.none },
                    hasFuture := false } ∧
    (MailboxProtocol.start st
        { data := { command := cmd.name, sender := sender, target := target,
                    args := args.getD [], kwargs := kwargs.getD [],
                    ack := Option.none },
          hasFuture := false } running wr).1
      = st := by
  constructor
  · simp [Message.command, hc, hack]
  · simp [MailboxProtocol.start]

/-- Witness for C5: the unacked command `notify`, sent on a connection with
one unrelated pending entry, leaves the table as it was. -/
theorem unacked_request_witness :
    Message.command [{ name := "notify", ack := false }] "tok77777"
        "notify" "actorA" "arbiter" Option.none Option.none
      = Except.ok { data := { command := "notify", sender := "actorA",
                              target := "arbiter", args := [],
                              kwargs := [], ack := Option.none },
                    hasFuture := false } ∧
    (MailboxProtocol.start
        { pending := [("zz11zz11", FutureState.pending)] }
        { data := { command := "notify", sender := "actorA",
                    target := "arbiter", args := [], kwargs := [],
                    ack := Option.none },
          hasFuture := false } true Option.none).1
      = { pending := [("zz11zz11", FutureState.pending)] } := by
  have h := unacked_request_no_token_no_table_entry
    [{ name := "notify", ack := false }] { name := "notify", ack := false }
    "tok77777" "notify" "actorA" "arbiter" Option.none Option.none
    { pending := [("zz11zz11", FutureState.pending)] } true Option.none
    (by decide) rfl
  simpa using h

/-- Claim C6 (status: code_bug).  The claim says chunks received while
reading is paused are buffered in arrival order — which holds, first two
conjuncts — and replayed to the protocol, in order and unaltered, on
resume.  `resume` (`stream.py` lines 49-57) instead clears the flag,
empties the buffer, and then its replay loop reads the unbound name
`chunk` (the loop variable is `data`), so with a non-empty buffer it
raises `NameError: name 'chunk' is not defined` after the buffered chunks
were already discarded; nothing is ever delivered to the protocol (third
conjunct, at two buffered one-byte chunks). -/
theorem paused_chunks_discarded_on_resume :
    (SocketStreamTransport.readReady
        (SocketStreamTransport.pause {}) [[10], [20]]).2 = [] ∧
    (SocketStreamTransport.readReady
        (SocketStreamTransport.pause {}) [[10], [20]]).1.read_buffer
      = [[10], [20]] ∧
    SocketStreamTransport.resume
        (SocketStreamTransport.readReady
          (SocketStreamTransport.pause {}) [[10], [20]]).1
      = (({} : TransportState), [],
         Option.some (PyError.nameError "chunk")) := by
  refine ⟨by decide, by decide, by decide⟩

/-- Claim C10 (status: confirmed).  `write` called with an empty byte
sequence returns at once — before the closed-state check, so also on a
closed transport — raising nothing and leaving the whole transport state
(write queue, writer registration, flags) unchanged, and sending no byte
to the socket. -/
theorem write_empty_data_noop (max : Nat) (st : TransportState)
    (oracle : List Nat) :
    SocketStreamTransport.write max st [] oracle
      = (st, [], Option.none) := by
  simp [SocketStreamTransport.write]

theorem resolveWithFailure_fresh (tbl : List (String × FutureState))
    (tok : String) (e : PyError)
    (hfresh : ∀ p ∈ tbl, p.1 ≠ tok) :
    resolveWithFailure (tbl ++ [(tok, FutureState.pending)]) tok e
      = tbl ++ [(tok, FutureState.resolvedErr e)] := by
  have h1 : ∀ (l : List (String × FutureState)), (∀ p ∈ l, p.1 ≠ tok) →
      l.map (fun p =>
        if p.1 = tok then (p.1, FutureState.resolvedErr e) else p) = l := by
    intro l
    induction l with
    | nil => intro _; rfl
    | cons p ps ih =>
        intro hl
        simp only [List.map_cons]
        rw [if_neg (hl p (by simp)), ih (fun q hq => hl q (by simp [hq]))]
  unfold resolveWithFailure
  rw [List.map_append, h1 tbl hfresh]
  simp

/-- Claim C2, counterexample.  The claim says a synchronous failure of the
write resolves the placeholder with that failure rather than leaving it
unresolved.  When `self.transport.write` raises an `IOError` while the
actor is not running, `_write` swallows it (`mailbox.py` lines 240-243),
so `_start`'s handler never fires: here the transport write raised
`IOError('EPIPE')` during shutdown, yet the table still holds the token
mapped to an unresolved placeholder, and no exception escaped either. -/
theorem acked_write_failure_during_shutdown_left_pending :
    (MailboxProtocol.start { pending := [] }
        { data := { command := "spawn", sender := "arbiter",
                    target := "worker1", args := [], kwargs := [],
                    ack := Option.some "ab12cd34" },
          hasFuture := true }
        false (Option.some (PyError.ioError "EPIPE"))).1
      = { pending := [("ab12cd34", FutureState.pending)] } ∧
    (MailboxProtocol.start { pending := [] }
        { data := { command := "spawn", sender := "arbiter",
                    target := "worker1", args := [], kwargs := [],
                    ack := Option.some "ab12cd34" },
          hasFuture := true }
        false (Option.some (PyError.ioError "EPIPE"))).2.2
      = Option.none := by
  refine ⟨by decide, by decide⟩

/-- Claim C2, amended (status: corrected).  For every acknowledged request,
the pending placeholder is stored in the correlation table under the
request's token before the write is attempted (the event trace opens with
the store, then the write attempt), and if the write fails with an
exception that `_write` propagates — any exception except an `IOError`
raised while the actor is not running — the placeholder is resolved
immediately with that failure; an `IOError` raised while the actor is not
running is swallowed inside `_write` and the placeholder remains
unresolved in the table.  Either way nothing escapes `_start`. -/
theorem acked_request_stored_before_write_then_resolved_on_failure
    (st : ProtocolState) (req : Message) (tok : String) (running : Bool)
    (wr : Option PyError)
    (hf : req.hasFuture = true) (ha : req.data.ack = Option.some tok)
    (hfresh : ∀ p ∈ st.pending, p.1 ≠ tok) :
    ((MailboxProtocol.start st req running wr).2.1.take 2
        = [StartEvent.storePending tok, StartEvent.writeAttempt]) ∧
    (∀ e, MailboxProtocol.writeEnvelope running wr = Option.some e →
        (MailboxProtocol.start st req running wr).1.pending
          = st.pending ++ [(tok, FutureState.resolvedErr e)]) ∧
    (MailboxProtocol.writeEnvelope running wr = Option.none →
        (MailboxProtocol.start st req running wr).1.pending
          = st.pending ++ [(tok, FutureState.pending)]) ∧
    (MailboxProtocol.start st req running wr).2.2 = Option.none := by
  have hcond : (req.hasFuture && req.data.ack.isSome) = true := by
    rw [hf, ha]; rfl
  have hstart : MailboxProtocol.start st req running wr
      = (match MailboxProtocol.writeEnvelope running wr with
         | Option.none =>
             ({ pending := st.pending ++ [(tok, FutureState.pending)] },
              [StartEvent.storePending tok, StartEvent.writeAttempt],
              Option.none)
         | Option.some e =>
             ({ pending := resolveWithFailure
                  (st.pending ++ [(tok, FutureState.pending)]) tok e },
              [StartEvent.storePending tok, StartEvent.writeAttempt,
               StartEvent.resolveFailure tok e],
              Option.none)) := by
    unfold MailboxProtocol.start
    rw [if_pos hcond, ha]
    rfl
  rw [hstart]
  cases hw : MailboxProtocol.writeEnvelope running wr with
  | none =>
      refine ⟨rfl, ?_, fun _ => rfl, rfl⟩
      intro e he
      exact absurd he (by simp)
  | some e0 =>
      refine ⟨rfl, ?_, ?_, rfl⟩
      · intro e he
        rw [← Option.some_inj.mp he]
        exact resolveWithFailure_fresh st.pending tok e0 hfresh
      · intro h0
        exact absurd h0 (by simp)

/-- Witness for the amended C2: an acked `spawn` request on a fresh
connection whose transport write raises `IOError('ECONNRESET')` while the
actor is running: the trace opens with the store then the write attempt,
and the table holds the token resolved with that failure. -/
theorem acked_request_stored_before_write_witness :
    ((MailboxProtocol.start { pending := [] }
        { data := { command := "spawn", sender := "arbiter",
                    target := "worker1", args := [], kwargs := [],
                    ack := Option.some "ef56ab12" },
          hasFuture := true }
        true (Option.some (PyError.ioError "ECONNRESET"))).2.1.take 2
      = [StartEvent.storePending "ef56ab12", StartEvent.writeAttempt]) ∧
    ((MailboxProtocol.start { pending := [] }
        { data := { command := "spawn", sender := "arbiter",
                    target := "worker1", args := [], kwargs := [],
                    ack := Option.some "ef56ab12" },
          hasFuture := true }
        true (Option.some (PyError.ioError "ECONNRESET"))).1.pending
      = [("ef56ab12",
          FutureState.resolvedErr (PyError.ioError "ECONNRESET"))]) := by
  have h := acked_request_stored_before_write_then_resolved_on_failure
    { pending := [] }
    { data := { command := "spawn", sender := "arbiter",
                target := "worker1", args := [], kwargs := [],
                ack := Option.some "ef56ab12" },
      hasFuture := true }
    "ef56ab12" true (Option.some (PyError.ioError "ECONNRESET"))
    rfl rfl (by simp)
  exact ⟨h.1, by simpa using h.2.1 (PyError.ioError "ECONNRESET") rfl⟩

/-- Claim C7 (status: confirmed).  For a sequence of `write` calls
submitted while the transport is paused-writing, no byte reaches the
socket and the write queue keeps growing (the pieces of each call appended
in submission order); after `resume_writing`, the event loop's next
invocation of the write-readiness handler — here with a socket accepting
every chunk in full — delivers exactly the accumulated bytes, in original
submission order with byte-exact content, and drains the queue. -/
theorem writes_while_paused_sent_in_order_after_resume
    (max : Nat) (st : TransportState) (datas : List Chunk)
    (hp : st.paused_writing = true) (hcl : st.closed = false)
    (hmax : 0 < max) (hne : ∀ d ∈ datas, d ≠ [])
    (hbuf : st.write_buffer = []) :
    (writeSeq max st datas).2 = [] ∧
    (writeSeq max st datas).1.write_buffer
      = datas.flatMap (writePieces max) ∧
    (writeSeq max st datas).1.write_buffer.flatten = datas.flatten ∧
    (SocketStreamTransport.readyWrite
        (SocketStreamTransport.resume_writing (writeSeq max st datas).1)
        ((writeSeq max st datas).1.write_buffer.map List.length)).2
      = datas.flatten ∧
    (SocketStreamTransport.readyWrite
        (SocketStreamTransport.resume_writing (writeSeq max st datas).1)
        ((writeSeq max st datas).1.write_buffer.map
          List.length)).1.write_buffer
      = [] := by
  have hws := writeSeq_paused max datas st hp hcl hne
  rw [hbuf] at hws
  simp only [List.nil_append] at hws
  rw [hws]
  have hPne : ∀ c ∈ datas.flatMap (writePieces max), c ≠ [] :=
    flatMap_writePieces_mem max hmax datas hne
  have hflat := flatMap_writePieces_flatten max hmax datas
  have h2 := resume_then_full_drain
    { st with write_buffer := datas.flatMap (writePieces max) }
    (by simpa using hp) (by simpa using hPne)
  exact ⟨rfl, rfl, hflat, h2.1.trans hflat, h2.2⟩

/-- Witness for C7: two writes, of four bytes and one byte, on a fresh
paused transport with a three-byte maximum chunk size: nothing is sent
while paused, the queue holds the split pieces in order, and after resume
the full-acceptance drain emits exactly the five bytes in order. -/
theorem writes_while_paused_witness :
    (writeSeq 3 { paused_writing := true } [[1, 2, 3, 4], [5]]).2 = [] ∧
    (writeSeq 3 { paused_writing := true }
        [[1, 2, 3, 4], [5]]).1.write_buffer
      = [[1, 2, 3], [4], [5]] ∧
    (SocketStreamTransport.readyWrite
        (SocketStreamTransport.resume_writing
          (writeSeq 3 { paused_writing := true } [[1, 2, 3, 4], [5]]).1)
        ((writeSeq 3 { paused_writing := true }
            [[1, 2, 3, 4], [5]]).1.write_buffer.map List.length)).2
      = [1, 2, 3, 4, 5] := by
  have h := writes_while_paused_sent_in_order_after_resume 3
    { paused_writing := true } [[1, 2, 3, 4], [5]] rfl rfl (by decide)
    (by decide) rfl
  exact ⟨h.1, by rw [h.2.1]; decide, by rw [h.2.2.2.1]; decide⟩

/-- Claim C8 (status: confirmed).  A non-empty chunk handed to `write` is
appended to the write queue as pieces each non-empty and of length at most
the configured maximum, whose in-order concatenation is the original data
(appended verbatim when something is already queued or writing is paused);
in every case the bytes sent immediately followed by the remaining queue
contents equal the prior queue contents followed by the new data — the
pieces reach the socket in submission order — and no error is raised. -/
theorem write_splits_into_bounded_pieces
    (max : Nat) (st : TransportState) (data : Chunk) (oracle : List Nat)
    (hd : data ≠ []) (hcl : st.closed = false) (hmax : 0 < max) :
    (∀ p ∈ writePieces max data, p ≠ [] ∧ p.length ≤ max) ∧
    (writePieces max data).flatten = data ∧
    (st.write_buffer ≠ [] ∨ st.paused_writing = true →
      SocketStreamTransport.write max st data oracle
        = ({ st with write_buffer :=
              st.write_buffer ++ writePieces max data },
           [], Option.none)) ∧
    ((SocketStreamTransport.write max st data oracle).2.1 ++
        (SocketStreamTransport.write max st data
          oracle).1.write_buffer.flatten
      = st.write_buffer.flatten ++ data) ∧
    (SocketStreamTransport.write max st data oracle).2.2
      = Option.none := by
  have hcons := write_conservation max st data oracle hd hcl
  refine ⟨writePieces_mem max hmax data hd,
    writePieces_flatten max hmax data, ?_,
    hcons.1.trans (by rw [writePieces_flatten max hmax data]),
    hcons.2⟩
  intro hcase
  have hn : ¬(st.write_buffer = [] ∧ st.paused_writing = false) := by
    rcases hcase with h | h
    · exact fun hh => h hh.1
    · exact fun hh => by simp [h] at hh
  unfold SocketStreamTransport.write
  rw [if_neg hd, if_neg (by simp [hcl]), if_neg hn]

/-- Witness for C8: a three-byte chunk written with a two-byte maximum on
a fresh transport whose socket accepts nothing immediately: the pieces are
`[7, 8]` and `[9]`, bounded and concatenating to the data, the queue holds
them in order, and no error is raised. -/
theorem write_splits_witness :
    (writePieces 2 [7, 8, 9]).flatten = [7, 8, 9] ∧
    ((SocketStreamTransport.write 2 {} [7, 8, 9] []).2.1 ++
        (SocketStreamTransport.write 2 {} [7, 8, 9]
          []).1.write_buffer.flatten
      = ({} : TransportState).write_buffer.flatten ++ [7, 8, 9]) ∧
    (SocketStreamTransport.write 2 {} [7, 8, 9] []).2.2
      = Option.none := by
  have h := write_splits_into_bounded_pieces 2 {} [7, 8, 9] []
    (by decide) rfl (by decide)
  exact ⟨h.2.1, h.2.2.2.1, h.2.2.2.2⟩

/-- Claim C9 (status: confirmed).  When every candidate address fails, the
aggregation step of `create_connection` surfaces the first failure when
all failures carry an identical textual description (a single failure is
its own description trivially), and otherwise a combined
`'Multiple exceptions: '` failure joining every description; in either
case every individual failure's text occurs verbatim inside the surfaced
failure's text, so a combined failure over N distinct failures mentions
all N of them. -/
theorem connect_all_fail_error_aggregation (e : ErrText)
    (rest : List ErrText) :
    (rest.all (fun x => x = e) = true →
        combineExceptions (e :: rest) = Option.some e) ∧
    (rest.all (fun x => x = e) = false →
        combineExceptions (e :: rest)
          = Option.some ("Multiple exceptions: ".toList ++
              List.intercalate ", ".toList (e :: rest))) ∧
    (∀ c, combineExceptions (e :: rest) = Option.some c →
        ∀ x ∈ e :: rest, x <:+: c) := by
  by_cases hall : rest.all (fun x => x = e) = true
  · have hmem : ∀ x ∈ e :: rest, x = e := by
      intro x hx
      rcases List.mem_cons.mp hx with h | h
      · exact h
      · exact of_decide_eq_true (List.all_eq_true.mp hall x h)
    refine ⟨fun _ => ?_, fun hf => absurd hall (by simp [hf]), ?_⟩
    · unfold combineExceptions
      by_cases hre : rest = [] <;> simp [hre, hall]
    · intro c hc x hx
      have hce : c = e := by
        unfold combineExceptions at hc
        by_cases hre : rest = [] <;>
          simp [hre, hall] at hc <;> exact hc.symm
      rw [hce, hmem x hx]
  · have hre : rest ≠ [] := by
      intro hh
      exact hall (by simp [hh])
    have hcomb : combineExceptions (e :: rest)
        = Option.some ("Multiple exceptions: ".toList ++
            List.intercalate ", ".toList (e :: rest)) := by
      unfold combineExceptions
      simp [hre, hall]
    refine ⟨fun ht => absurd ht hall, fun _ => hcomb, ?_⟩
    intro c hc x hx
    rw [hcomb] at hc
    rw [← Option.some_inj.mp hc]
    exact (mem_isInfix_intercalate ", ".toList (e :: rest) x hx).trans
      (List.suffix_append "Multiple exceptions: ".toList _).isInfix

end Pulsar
